import Mathlib

/-!
Verification development for the DESWL PSF pipeline scripts
(`psf/run_psfex.py` and `psf/plot_fs.py`).

The scripts are shallowly embedded: catalogs become lists of `Row`
records, the defect-region table becomes a list of `Region`, numpy
float arithmetic is modelled over `ℚ`, file writes are recorded as the
list of artifact names written, and Python exceptions become
`Except String` results.  The random permutation drawn by
`numpy.random.permutation(n)` is supplied as an oracle `rperm : ℕ → List ℕ`
about which theorems assume `rperm n` is a permutation of `range n`.
-/

/-- One detection record of a SExtractor catalog (`pyf[2].data`), with the
columns the refinement pipeline reads: `NUMBER`, `FLAGS`, `X_IMAGE`,
`Y_IMAGE`, `MAG_AUTO`, `FLUX_RADIUS`. -/
structure Row where
  number : ℤ
  flags : ℤ
  x : ℚ
  y : ℚ
  mag : ℚ
  flux_radius : ℚ
deriving DecidableEq, Repr

/-- One tape-bump defect region as `read_tapebump_file` packages it: the
tuple `(ymin, xmin, ymax, xmax)` of integer pixel bounds (run_psfex.py
line 145). -/
structure Region where
  ymin : ℤ
  xmin : ℤ
  ymax : ℤ
  xmax : ℤ
deriving DecidableEq, Repr

/-- The elementwise mask of `exclude_tapebumps` (run_psfex.py line 163) for
one region: `(y>tb[0]-extra) & (x>tb[1]-extra) & (y<tb[2]+extra) & (x<tb[3]+extra)`,
with `extra` already including the +0.5 slop. -/
def tbContains (extra : ℚ) (tb : Region) (r : Row) : Bool :=
  decide ((tb.ymin : ℚ) - extra < r.y) && decide ((tb.xmin : ℚ) - extra < r.x)
    && decide (r.y < (tb.ymax : ℚ) + extra) && decide (r.x < (tb.xmax : ℚ) + extra)

/-- `exclude_tapebumps(tbd, data, extra)` (run_psfex.py lines 149-169).
The function adds 0.5 to `extra`, builds one boolean mask per region,
combines them with `numpy.any(masks, axis=0)` and keeps the rows where no
mask fired.  When `tbd` is empty, `masks` is the empty Python list, so
`numpy.any([], axis=0)` is a zero-dimensional scalar, and the builtin
`sum(mask)` on line 165 then raises `TypeError` (a 0-d numpy value is not
iterable); that exception is modelled as the `.error` branch. -/
def exclude_tapebumps (tbd : List Region) (data : List Row) (extra : ℚ) :
    Except String (List Row) :=
  let extra2 := extra + 1/2
  if tbd.isEmpty then
    .error "TypeError: iteration over a 0-d array"
  else
    .ok (data.filter (fun r => ! tbd.any (fun tb => tbContains extra2 tb r)))

/-- Modelled from the spec's words for comparison with the code: §4.1 reads
"a row at (x, y) is excluded if `row-min - margin ≤ y ≤ row-max + margin`
AND the symmetric condition holds for x", with the margin also absorbing
the fixed +0.5 correction. -/
def specContains (margin : ℚ) (tb : Region) (r : Row) : Bool :=
  decide ((tb.ymin : ℚ) - (margin + 1/2) ≤ r.y) && decide (r.y ≤ (tb.ymax : ℚ) + (margin + 1/2))
    && decide ((tb.xmin : ℚ) - (margin + 1/2) ≤ r.x) && decide (r.x ≤ (tb.xmax : ℚ) + (margin + 1/2))

/-- A row sitting exactly on the inflated boundary of a region: at margin 0
its y coordinate equals `ymin - 0.5`. -/
def boundaryRow : Row := ⟨1, 0, 1, -1/2, 20, 1⟩

/-- The sample region used by the concrete tapebump theorems. -/
def sampleRegion : Region := ⟨0, 0, 2, 2⟩

/-- The elementwise mask holds exactly when the row is strictly inside the
region inflated by `extra` in both axes. -/
theorem tbContains_iff {extra : ℚ} {tb : Region} {r : Row} :
    tbContains extra tb r = true ↔
      ((tb.ymin : ℚ) - extra < r.y ∧ (tb.xmin : ℚ) - extra < r.x
        ∧ r.y < (tb.ymax : ℚ) + extra ∧ r.x < (tb.xmax : ℚ) + extra) := by
  simp [tbContains, and_assoc]

/-- C1 counterexample: the claim's containment predicate uses non-strict
bounds, but the code keeps a row sitting exactly on the inflated boundary
(strict comparisons); and with an empty region list the code does not
return a sub-catalog at all but raises. -/
theorem C1_boundary_row_kept :
    exclude_tapebumps [sampleRegion] [boundaryRow] 0 = .ok [boundaryRow]
      ∧ specContains 0 sampleRegion boundaryRow = true
      ∧ exclude_tapebumps [] [boundaryRow] 0 = .error "TypeError: iteration over a 0-d array" := by
  refine ⟨?_, ?_, rfl⟩
  · have hc : ∀ e : ℚ, e = 1/2 → tbContains e sampleRegion boundaryRow = false := by
      intro e he
      rw [Bool.eq_false_iff, Ne, tbContains_iff]
      rintro ⟨h1, -, -, -⟩
      rw [sampleRegion, boundaryRow, he] at h1
      norm_num at h1
    simp [exclude_tapebumps, hc (2⁻¹ : ℚ) (by norm_num)]
  · rw [specContains, sampleRegion, boundaryRow]
    norm_num

/-- C1 (amended): for every nonempty region list, `exclude_tapebumps`
returns a sub-catalog of the input (no rows added or altered, order kept)
and a row is kept iff for every region it is NOT strictly inside the
region inflated by `margin + 0.5` in both axes. -/
theorem C1_tapebump_exclusion (tbd : List Region) (data : List Row) (extra : ℚ)
    (hne : tbd ≠ []) :
    ∃ res, exclude_tapebumps tbd data extra = .ok res
      ∧ res.Sublist data
      ∧ (∀ r : Row, r ∈ res ↔ r ∈ data ∧ ∀ tb ∈ tbd,
          ¬ ((tb.ymin : ℚ) - (extra + 1/2) < r.y ∧ r.y < (tb.ymax : ℚ) + (extra + 1/2)
            ∧ (tb.xmin : ℚ) - (extra + 1/2) < r.x ∧ r.x < (tb.xmax : ℚ) + (extra + 1/2))) := by
  refine ⟨data.filter (fun r => ! tbd.any (fun tb => tbContains (extra + 1/2) tb r)), ?_,
    List.filter_sublist data, ?_⟩
  · simp only [exclude_tapebumps]
    rw [if_neg (by simpa [List.isEmpty_iff] using hne)]
  · intro r
    simp only [List.mem_filter, Bool.not_eq_true', List.any_eq_false]
    constructor
    · rintro ⟨hm, hp⟩
      refine ⟨hm, fun tb htb hcon => ?_⟩
      exact (hp tb htb) (tbContains_iff.mpr ⟨hcon.1, hcon.2.2.1, hcon.2.1, hcon.2.2.2⟩)
    · rintro ⟨hm, h⟩
      refine ⟨hm, fun tb htb hc => ?_⟩
      rcases tbContains_iff.mp hc with ⟨a, b, c, d⟩
      exact h tb htb ⟨a, c, b, d⟩

/-- C1 witness: the amended theorem applied to a concrete region list,
catalog and margin. -/
theorem C1_tapebump_exclusion_witness :
    ∃ res, exclude_tapebumps [sampleRegion] [boundaryRow] 0 = .ok res
      ∧ res.Sublist [boundaryRow]
      ∧ (∀ r : Row, r ∈ res ↔ r ∈ [boundaryRow] ∧ ∀ tb ∈ [sampleRegion],
          ¬ ((tb.ymin : ℚ) - (0 + 1/2) < r.y ∧ r.y < (tb.ymax : ℚ) + (0 + 1/2)
            ∧ (tb.xmin : ℚ) - (0 + 1/2) < r.x ∧ r.x < (tb.xmax : ℚ) + (0 + 1/2))) :=
  C1_tapebump_exclusion [sampleRegion] [boundaryRow] 0 (by decide)

/-- C9: the code raises on an empty region list (the claim says the catalog
is returned unchanged).  `numpy.any` of the empty mask list is a 0-d
scalar and `sum(mask)` raises `TypeError`. -/
theorem C9_empty_region_list_raises :
    exclude_tapebumps [] [boundaryRow] 0 = .error "TypeError: iteration over a 0-d array" := rfl

/-- Ascending sort of a numeric column, as `numpy.sort` produces it. -/
def sortQ (l : List ℚ) : List ℚ := List.insertionSort (fun a b => a ≤ b) l

/-- `numpy.min` of a nonempty column (a reduction).  On the empty column the
source raises; callers in this file guard that case, and the 0 returned
here is never relied upon. -/
def minQ : List ℚ → ℚ
  | [] => 0
  | x :: xs => xs.foldl min x

/-- `numpy.max` of a nonempty column, as a reduction. -/
def maxQ : List ℚ → ℚ
  | [] => 0
  | x :: xs => xs.foldl max x

/-- `numpy.mean`: the sum over the length. -/
def meanQ (l : List ℚ) : ℚ := l.sum / l.length

/-- `numpy.median`: the middle element of the sorted column for odd length,
the average of the two middle elements for even length.  On the empty
column numpy produces NaN; this model returns the junk value 0 there and
no theorem relies on it. -/
def medianQ (l : List ℚ) : ℚ :=
  let s := sortQ l
  if l.length % 2 = 1 then s.getD (l.length / 2) 0
  else (s.getD (l.length / 2 - 1) 0 + s.getD (l.length / 2) 0) / 2

/-- `get_fwhm(cat_file)` (run_psfex.py lines 438-450): per-row blur-width
estimate `fwhm = 2. * data['FLUX_RADIUS']`, then the tuple
`(numpy.min(fwhm), numpy.max(fwhm), numpy.mean(fwhm), numpy.median(fwhm))`.
On an empty catalog `numpy.min` raises `ValueError` (a zero-size reduction
has no identity), modelled as the `.error` branch. -/
def get_fwhm (flux_radius : List ℚ) : Except String (ℚ × ℚ × ℚ × ℚ) :=
  let fwhm := flux_radius.map (fun fr => 2 * fr)
  if fwhm.isEmpty then
    .error "ValueError: zero-size array to reduction operation minimum which has no identity"
  else
    .ok (minQ fwhm, maxQ fwhm, meanQ fwhm, medianQ fwhm)

theorem two_mul_min (a b : ℚ) : 2 * min a b = min (2*a) (2*b) := by
  rcases le_total a b with h | h
  · rw [min_eq_left h, min_eq_left (by linarith)]
  · rw [min_eq_right h, min_eq_right (by linarith)]

theorem two_mul_max (a b : ℚ) : 2 * max a b = max (2*a) (2*b) := by
  rcases le_total a b with h | h
  · rw [max_eq_right h, max_eq_right (by linarith)]
  · rw [max_eq_left h, max_eq_left (by linarith)]

theorem foldl_min_two_mul (l : List ℚ) : ∀ a : ℚ,
    (l.map (fun x => 2*x)).foldl min (2*a) = 2 * l.foldl min a := by
  induction l with
  | nil => intro a; rfl
  | cons x xs ih =>
    intro a
    simp only [List.map_cons, List.foldl_cons]
    rw [← two_mul_min, ih]

theorem foldl_max_two_mul (l : List ℚ) : ∀ a : ℚ,
    (l.map (fun x => 2*x)).foldl max (2*a) = 2 * l.foldl max a := by
  induction l with
  | nil => intro a; rfl
  | cons x xs ih =>
    intro a
    simp only [List.map_cons, List.foldl_cons]
    rw [← two_mul_max, ih]

theorem sum_two_mul (l : List ℚ) : (l.map (fun x => 2*x)).sum = 2 * l.sum := by
  induction l with
  | nil => simp
  | cons x xs ih => simp [ih, mul_add]

theorem orderedInsert_two_mul (a : ℚ) (l : List ℚ) :
    List.orderedInsert (fun a b => a ≤ b) (2*a) (l.map (fun x => 2*x))
      = (List.orderedInsert (fun a b => a ≤ b) a l).map (fun x => 2*x) := by
  induction l with
  | nil => rfl
  | cons x xs ih =>
    simp only [List.map_cons, List.orderedInsert]
    by_cases h : a ≤ x
    · rw [if_pos (by linarith : 2*a ≤ 2*x), if_pos h]
      simp
    · rw [if_neg (fun hc : 2*a ≤ 2*x => h (by linarith)), if_neg h, List.map_cons, ih]

theorem sortQ_two_mul (l : List ℚ) :
    sortQ (l.map (fun x => 2*x)) = (sortQ l).map (fun x => 2*x) := by
  induction l with
  | nil => rfl
  | cons x xs ih =>
    simp only [sortQ, List.map_cons, List.insertionSort] at *
    rw [ih, orderedInsert_two_mul]

theorem getD_two_mul (s : List ℚ) (i : ℕ) (h : i < s.length) :
    (s.map (fun x => 2*x)).getD i 0 = 2 * s.getD i 0 := by
  rw [List.getD_eq_getElem?_getD, List.getD_eq_getElem?_getD, List.getElem?_map,
    List.getElem?_eq_getElem h]
  simp

theorem length_sortQ (l : List ℚ) : (sortQ l).length = l.length :=
  (List.perm_insertionSort _ l).length_eq

theorem medianQ_two_mul (l : List ℚ) (hne : l ≠ []) :
    medianQ (l.map (fun x => 2*x)) = 2 * medianQ l := by
  have hlen : 0 < l.length := List.length_pos.mpr hne
  have hslen : (sortQ l).length = l.length := length_sortQ l
  simp only [medianQ, List.length_map, sortQ_two_mul]
  by_cases h : l.length % 2 = 1
  · rw [if_pos h, if_pos h, getD_two_mul _ _ (by omega)]
  · rw [if_neg h, if_neg h, getD_two_mul _ _ (by omega), getD_two_mul _ _ (by omega)]
    ring

theorem minQ_two_mul (l : List ℚ) : minQ (l.map (fun x => 2*x)) = 2 * minQ l := by
  cases l with
  | nil => simp [minQ]
  | cons x xs => simp only [List.map_cons, minQ, foldl_min_two_mul]

theorem maxQ_two_mul (l : List ℚ) : maxQ (l.map (fun x => 2*x)) = 2 * maxQ l := by
  cases l with
  | nil => simp [maxQ]
  | cons x xs => simp only [List.map_cons, maxQ, foldl_max_two_mul]

theorem meanQ_two_mul (l : List ℚ) : meanQ (l.map (fun x => 2*x)) = 2 * meanQ l := by
  simp only [meanQ, List.length_map, sum_two_mul, mul_div_assoc]

/-- C8: the statistics aggregator is the pure 4-tuple
(min, max, mean, median) of the doubled flux-radius column, and on the
empty subset it signals the empty-input condition instead of returning
numbers. -/
theorem C8_fwhm_statistics (l : List ℚ) (hne : l ≠ []) :
    get_fwhm l = .ok (2 * minQ l, 2 * maxQ l, 2 * meanQ l, 2 * medianQ l)
      ∧ get_fwhm []
        = .error "ValueError: zero-size array to reduction operation minimum which has no identity" := by
  refine ⟨?_, rfl⟩
  have hmap : (l.map (fun fr => 2 * fr)).isEmpty = false := by
    cases l with
    | nil => exact absurd rfl hne
    | cons x xs => rfl
  simp only [get_fwhm, hmap, if_false, Bool.false_eq_true]
  rw [minQ_two_mul, maxQ_two_mul, meanQ_two_mul, medianQ_two_mul l hne]

/-- C8 witness: the aggregator evaluated on the concrete column [1/2, 3]. -/
theorem C8_fwhm_statistics_witness :
    get_fwhm [1/2, 3] = .ok (1, 6, 7/2, 7/2) := by
  have h := (C8_fwhm_statistics [1/2, 3] (by simp)).1
  rw [h, minQ, maxQ]
  norm_num [meanQ, medianQ, sortQ, List.insertionSort, List.orderedInsert]

/-- Does `pat` start the character list `s`?  (Helper for the model of
Python's `str.replace`.) -/
def startsWithCL : List Char → List Char → Bool
  | [], _ => true
  | _ :: _, [] => false
  | p :: ps, c :: cs => decide (p = c) && startsWithCL ps cs

/-- Python's `str.replace(pat, rep)` over character lists: every
non-overlapping occurrence of `pat`, scanned left to right, is replaced
by `rep`.  The fuel argument (instantiated with the list length, an upper
bound on the scan steps since a nonempty `pat` consumes at least one
character per step) keeps the recursion structural. -/
def listReplaceFuel (pat rep : List Char) : ℕ → List Char → List Char
  | _, [] => []
  | 0, s => s
  | fuel+1, c :: cs =>
    if startsWithCL pat (c :: cs) = true ∧ pat ≠ [] then
      rep ++ listReplaceFuel pat rep fuel ((c :: cs).drop pat.length)
    else
      c :: listReplaceFuel pat rep fuel cs

/-- `str.replace` over character lists (see `listReplaceFuel`). -/
def listReplace (pat rep s : List Char) : List Char :=
  listReplaceFuel pat rep s.length s

/-- Python's `str.replace` on strings, used by the pipeline to rewrite
catalog artifact names (`new_cat_file.replace('psfcat', ...)`). -/
def strReplace (s pat rep : String) : String := ⟨listReplace pat.data rep.data s.data⟩

/-- Left-pad a digit string with zeros to `k` characters. -/
def zeroPad (k : ℕ) (s : String) : String := ⟨List.replicate (k - s.length) '0'⟩ ++ s

/-- Python's `'%0.df' % q` for the nonnegative values the pipeline formats
(`%0.1f` for magnitude cuts, `%0.2f` for the reservation fraction):
round to `d` decimal places and print with the decimal point. -/
def fmtFixed (d : ℕ) (q : ℚ) : String :=
  let m : ℤ := (10 : ℤ) ^ d
  let t : ℤ := ⌊q * (m : ℚ) + 1/2⌋
  toString (t / m) ++ "." ++ zeroPad d (toString ((t % m).toNat))

/-- Evaluation helper: once the rounded scaled value of `q` is known, the
formatted text follows by computation. -/
theorem fmtFixed_eval (d : ℕ) (q : ℚ) (t : ℤ)
    (ht : ⌊q * (((10 : ℤ) ^ d : ℤ) : ℚ) + 1/2⌋ = t) :
    fmtFixed d q = toString (t / (10 : ℤ) ^ d) ++ "." ++ zeroPad d (toString ((t % (10 : ℤ) ^ d).toNat)) := by
  simp only [fmtFixed]
  rw [ht]

/-- The body of `"%s %s %d %d\n" % args`: Python checks that exactly four
arguments are supplied for the four conversion specifiers and raises
`TypeError` otherwise; on success the fields appear in argument order,
space-separated and newline-terminated. -/
def formatLine4 (args : List String) : Option String :=
  match args with
  | [a, b, c, d] => some (a ++ " " ++ b ++ " " ++ c ++ " " ++ d ++ "\n")
  | _ => none

namespace RunPsfex

/-- `log_blacklist` of run_psfex.py (lines 172-181): open the blacklist in
append mode and write one formatted line; on `OSError` wait a second and
retry the same call.  The file-system behaviour is supplied as the trace
`openFails` (one entry per attempt: `true` = the open/write primitive
fails with `OSError`); the result is the list of lines appended.  The
source retries forever, so the model errors only when the finite trace
runs out. -/
def log_blacklist (openFails : List Bool) (run exp : String) (ccdnum flag : ℤ) :
    Except String (List String) :=
  match openFails with
  | [] => .error "model: attempt trace exhausted"
  | failed :: rest =>
    if failed then
      log_blacklist rest run exp ccdnum flag
    else
      match formatLine4 [run, exp, toString ccdnum, toString flag] with
      | some line => .ok [line]
      | none => .error "TypeError: not enough arguments for format string"

end RunPsfex

namespace PlotFs

/-- `log_blacklist` of plot_fs.py (lines 61-70): same retry structure, but
the function takes only `(exp, ccdnum, flag)` while its format string
`"%s %s %d %d\n"` still has four conversion specifiers, so the format
step raises `TypeError` — which the `except OSError` clause does not
catch. -/
def log_blacklist (openFails : List Bool) (exp : String) (ccdnum flag : ℤ) :
    Except String (List String) :=
  match openFails with
  | [] => .error "model: attempt trace exhausted"
  | failed :: rest =>
    if failed then
      log_blacklist rest exp ccdnum flag
    else
      match formatLine4 [exp, toString ccdnum, toString flag] with
      | some line => .ok [line]
      | none => .error "TypeError: not enough arguments for format string"

end PlotFs

/-- C3: run_psfex.py's ledger appends exactly one line — the four fields in
order, space-separated, newline-terminated — after any number of
transient open failures followed by one success; but plot_fs.py's copy of
the routine never appends a line at all, because its format string has
four specifiers for three arguments. -/
theorem C3_blacklist_record (k : ℕ) (run exp : String) (ccdnum flag : ℤ) :
    RunPsfex.log_blacklist (List.replicate k true ++ [false]) run exp ccdnum flag
      = .ok [run ++ " " ++ exp ++ " " ++ toString ccdnum ++ " " ++ toString flag ++ "\n"]
    ∧ ∀ (fails : List Bool) (lines : List String),
        PlotFs.log_blacklist fails exp ccdnum flag ≠ .ok lines := by
  constructor
  · induction k with
    | zero => rfl
    | succ n ih =>
      rw [List.replicate_succ, List.cons_append, RunPsfex.log_blacklist, if_pos rfl]
      exact ih
  · intro fails
    induction fails with
    | nil => intro lines h; exact Except.noConfusion h
    | cons b rest ih =>
      intro lines
      cases b with
      | true =>
        rw [PlotFs.log_blacklist, if_pos rfl]
        exact ih lines
      | false =>
        rw [PlotFs.log_blacklist, if_neg (by simp)]
        exact fun h => Except.noConfusion h

/-- One step of the positional match in plot_fs.py (line 214 / line 222):
`numpy.where((numpy.abs(xx-x)<tol) & (numpy.abs(yy-y)<tol))[0]`, the
ascending list of indices of catalog-B rows within the tolerance of the
query position in both axes.  The source hardcodes a tolerance of one
pixel; it appears here as the parameter `tol` (spec §4.4 default 1.0). -/
def matchIndices (tol : ℚ) (bx bys : List ℚ) (ax ay : ℚ) : List ℕ :=
  (List.range (bx.zip bys).length).filter (fun j =>
    match (bx.zip bys)[j]? with
    | some p => decide (|p.1 - ax| < tol) && decide (|p.2 - ay| < tol)
    | none => false)

/-- The cross-match resolver of plot_fs.py main (lines 222-226):
`m1` is the per-A-row list of candidate B indices and `m2` their counts.
`cat_m = numpy.concatenate(numpy.array(m1)[m2==1])` (line 224) collects
the unique partners of the A rows with exactly one candidate, and then
`sex_m = numpy.where(m2==1)` (line 226) their A indices.  When NO A row
has exactly one candidate, the boolean selection `m1[m2==1]` is empty and
`numpy.concatenate` raises `ValueError: need at least one array to
concatenate` before `sex_m` is ever computed; that exception is the
`.error` branch. -/
def crossMatch (tol : ℚ) (ax ay bx bys : List ℚ) : Except String (List ℕ × List ℕ) :=
  let m1 := (ax.zip ay).map (fun a => matchIndices tol bx bys a.1 a.2)
  let m2 := m1.map List.length
  if (m1.filter (fun l => l.length == 1)).isEmpty then
    .error "ValueError: need at least one array to concatenate"
  else
    .ok ((List.range m1.length).filter (fun i => m2.getD i 0 == 1),
      (m1.filter (fun l => l.length == 1)).flatten)

/-- Membership in the candidate set: index `j` qualifies iff B has a row at
`j` within the tolerance of the query in both coordinates. -/
theorem mem_matchIndices {tol ax ay : ℚ} {bx bys : List ℚ} {j : ℕ} :
    j ∈ matchIndices tol bx bys ax ay ↔
      ∃ p q, bx[j]? = some p ∧ bys[j]? = some q ∧ |p - ax| < tol ∧ |q - ay| < tol := by
  simp only [matchIndices, List.mem_filter, List.mem_range]
  constructor
  · rintro ⟨hlt, hcond⟩
    rcases hz : (bx.zip bys)[j]? with _ | ⟨p, q⟩
    · rw [hz] at hcond
      exact absurd hcond (by simp)
    · rw [hz] at hcond
      simp only [Bool.and_eq_true, decide_eq_true_eq] at hcond
      have hpq := List.getElem?_zip_eq_some.mp hz
      exact ⟨p, q, hpq.1, hpq.2, hcond.1, hcond.2⟩
  · rintro ⟨p, q, hp, hq, h1, h2⟩
    have hz : (bx.zip bys)[j]? = some (p, q) := List.getElem?_zip_eq_some.mpr ⟨hp, hq⟩
    refine ⟨?_, ?_⟩
    · rcases List.getElem?_eq_some_iff.mp hz with ⟨h, -⟩
      exact h
    · rw [hz]
      simp [h1, h2]

/-- The retained-index/partner lists of the `where(m2==1)` /
`concatenate(m1[m2==1])` pattern pair up exactly with the positions
whose candidate list is a singleton. -/
theorem zipSel_spec (L : List (List ℕ)) :
    ((List.range L.length).filter (fun i => (L.map List.length).getD i 0 == 1)).length
        = ((L.filter (fun l => l.length == 1)).flatten).length
    ∧ ∀ i j : ℕ,
        (i, j) ∈ ((List.range L.length).filter (fun i => (L.map List.length).getD i 0 == 1)).zip
            ((L.filter (fun l => l.length == 1)).flatten)
          ↔ L[i]? = some [j] := by
  induction L using List.reverseRecOn with
  | nil =>
    refine ⟨rfl, fun i j => ?_⟩
    simp
  | append_singleton L l ih =>
    obtain ⟨ihlen, ihmem⟩ := ih
    have hcong : ∀ i ∈ List.range L.length,
        (((L ++ [l]).map List.length).getD i 0 == 1)
          = ((L.map List.length).getD i 0 == 1) := by
      intro i hi
      rw [List.mem_range] at hi
      rw [List.map_append, List.getD_eq_getElem?_getD, List.getD_eq_getElem?_getD,
        List.getElem?_append_left (by simpa using hi)]
    have hnew : (((L ++ [l]).map List.length).getD L.length 0 == 1) = (l.length == 1) := by
      rw [List.map_append, List.getD_eq_getElem?_getD,
        List.getElem?_append_right (by simp)]
      simp
    have hsplitA : (List.range (L ++ [l]).length).filter
          (fun i => (((L ++ [l]).map List.length).getD i 0 == 1))
        = ((List.range L.length).filter (fun i => (L.map List.length).getD i 0 == 1))
          ++ (if l.length = 1 then [L.length] else []) := by
      rw [List.length_append, List.length_singleton, List.range_succ, List.filter_append,
        List.filter_congr hcong]
      congr 1
      rw [List.filter_singleton, hnew]
      by_cases hl : l.length = 1
      · simp [hl]
      · have hbeq : (l.length == 1) = false := beq_eq_false_iff_ne.mpr hl
        simp [hbeq, hl]
    have hsplitB : ((L ++ [l]).filter (fun l => l.length == 1)).flatten
        = ((L.filter (fun l => l.length == 1)).flatten)
          ++ (if l.length = 1 then l else []) := by
      rw [List.filter_append, List.flatten_append]
      congr 1
      rw [List.filter_singleton]
      by_cases hl : l.length = 1
      · simp [hl]
      · have hbeq : (l.length == 1) = false := beq_eq_false_iff_ne.mpr hl
        simp [hbeq, hl]
    have happL : ∀ i : ℕ, ∀ u : List ℕ, i < L.length → ((L ++ [l])[i]? = some u ↔ L[i]? = some u) := by
      intro i u hi
      rw [List.getElem?_append_left hi]
    have happR : ∀ u : List ℕ, ((L ++ [l])[L.length]? = some u ↔ l = u) := by
      intro u
      rw [List.getElem?_append_right le_rfl]
      simp
    by_cases hl : l.length = 1
    · obtain ⟨j0, rfl⟩ := List.length_eq_one.mp hl
      rw [hsplitA, hsplitB, if_pos hl, if_pos hl]
      constructor
      · simp only [List.length_append, ihlen]
        rfl
      · intro i j
        rw [List.zip_append ihlen]
        simp only [List.mem_append, ihmem]
        constructor
        · rintro (h | h)
          · have hi : i < L.length := by
              rcases List.getElem?_eq_some_iff.mp h with ⟨hlt, -⟩
              exact hlt
            exact (happL i [j] hi).mpr h
          · simp only [List.zip_cons_cons, List.zip_nil_right, List.mem_singleton,
              Prod.mk.injEq] at h
            rw [h.1, h.2]
            exact (happR [j0]).mpr rfl
        · intro h
          rcases Nat.lt_trichotomy i L.length with hi | hi | hi
          · exact Or.inl ((happL i [j] hi).mp h)
          · subst hi
            have hj : j0 = j := by simpa using (happR [j]).mp h
            refine Or.inr ?_
            simp only [List.zip_cons_cons, List.zip_nil_right, List.mem_singleton,
              Prod.mk.injEq]
            exact ⟨by trivial, by simp [hj]⟩
          · rw [List.getElem?_eq_none (by simp; omega)] at h
            exact absurd h (by simp)
    · rw [hsplitA, hsplitB, if_neg hl, if_neg hl, List.append_nil, List.append_nil]
      refine ⟨ihlen, fun i j => ?_⟩
      rw [ihmem]
      constructor
      · intro h
        have hi : i < L.length := by
          rcases List.getElem?_eq_some_iff.mp h with ⟨hlt, -⟩
          exact hlt
        exact (happL i [j] hi).mpr h
      · intro h
        rcases Nat.lt_trichotomy i L.length with hi | hi | hi
        · exact (happL i [j] hi).mp h
        · subst hi
          have := (happR [j]).mp h
          exact absurd (congrArg List.length this) (by simpa using hl)
        · rw [List.getElem?_eq_none (by simp; omega)] at h
          exact absurd h (by simp)

/-- C4 (amended): per A-row the resolver computes the set of B indices
within the tolerance in both axes; whenever it returns a result, an
A-row is retained iff that set has size exactly one (ambiguous and
unmatched rows are dropped) and each retained A index is paired with its
unique B partner; but when no A-row has exactly one candidate (empty A,
all unmatched, or all ambiguous) the resolver raises the concatenate
`ValueError` instead of returning the empty mapping. -/
theorem C4_cross_match (tol : ℚ) (ax ay bx bys : List ℚ) :
    (∀ (j : ℕ) (a : ℚ × ℚ),
        j ∈ matchIndices tol bx bys a.1 a.2 ↔
          ∃ p q, bx[j]? = some p ∧ bys[j]? = some q ∧ |p - a.1| < tol ∧ |q - a.2| < tol)
    ∧ (∀ sel : List ℕ × List ℕ, crossMatch tol ax ay bx bys = .ok sel →
        (∀ i : ℕ, i ∈ sel.1 ↔
            ∃ a, (ax.zip ay)[i]? = some a ∧ (matchIndices tol bx bys a.1 a.2).length = 1)
        ∧ (∀ i j : ℕ, (i, j) ∈ sel.1.zip sel.2 ↔
            ∃ a, (ax.zip ay)[i]? = some a ∧ matchIndices tol bx bys a.1 a.2 = [j]))
    ∧ (crossMatch tol ax ay bx bys
          = .error "ValueError: need at least one array to concatenate"
        ↔ ∀ a ∈ ax.zip ay, (matchIndices tol bx bys a.1 a.2).length ≠ 1) := by
  set zab := ax.zip ay with hzab
  set f : ℚ × ℚ → List ℕ := fun a => matchIndices tol bx bys a.1 a.2 with hf
  have hget : ∀ (i : ℕ) (l : List ℕ),
      (zab.map f)[i]? = some l ↔ ∃ a, zab[i]? = some a ∧ f a = l := by
    intro i l
    rw [List.getElem?_map, Option.map_eq_some']
  have hempty : ((zab.map f).filter (fun l => l.length == 1)).isEmpty = true
      ↔ ∀ a ∈ zab, (f a).length ≠ 1 := by
    rw [List.isEmpty_iff, List.filter_eq_nil_iff]
    constructor
    · intro h a ha hlen
      exact (h (f a) (List.mem_map_of_mem f ha)) (by simpa using hlen)
    · intro h l hl hbeq
      rcases List.mem_map.mp hl with ⟨a, ha, rfl⟩
      exact h a ha (by simpa using hbeq)
  refine ⟨fun j a => mem_matchIndices, ?_, ?_⟩
  · intro sel hok
    simp only [crossMatch] at hok
    rw [← hzab, ← hf] at hok
    split at hok
    · exact absurd hok (by simp)
    · injection hok with hok'
      subst hok'
      constructor
      · intro i
        rw [List.mem_filter, List.mem_range]
        constructor
        · rintro ⟨hi, hp⟩
          rw [List.length_map] at hi
          refine ⟨zab[i], List.getElem?_eq_getElem hi, ?_⟩
          rw [List.getD_eq_getElem?_getD, List.getElem?_map, List.getElem?_map,
            List.getElem?_eq_getElem hi] at hp
          simpa using hp
        · rintro ⟨a, ha, hlen⟩
          have hi : i < zab.length := by
            rcases List.getElem?_eq_some_iff.mp ha with ⟨h, -⟩
            exact h
          have hia : zab[i] = a := by
            rw [List.getElem?_eq_getElem hi] at ha
            exact Option.some.inj ha
          refine ⟨by simpa using hi, ?_⟩
          rw [List.getD_eq_getElem?_getD, List.getElem?_map, List.getElem?_map,
            List.getElem?_eq_getElem hi, hia]
          simpa using hlen
      · intro i j
        rw [(zipSel_spec (zab.map f)).2 i j, hget i [j]]
  · constructor
    · intro herr
      simp only [crossMatch] at herr
      rw [← hzab, ← hf] at herr
      split at herr
      · next hE => exact hempty.mp hE
      · exact absurd herr (by simp)
    · intro hall
      simp only [crossMatch]
      rw [← hzab, ← hf, if_pos (hempty.mpr hall)]

/-- C4 counterexample: two B rows both within tolerance of the single A
row make that A row ambiguous, but instead of excluding it from a
returned match result the resolver raises: the selection `m1[m2==1]` is
empty and `numpy.concatenate` needs at least one array. -/
theorem C4_all_ambiguous_raises :
    2 ≤ (matchIndices 1 [(0 : ℚ), 0] [(0 : ℚ), 0] 0 0).length
    ∧ crossMatch 1 [0] [0] [(0 : ℚ), 0] [(0 : ℚ), 0]
        = .error "ValueError: need at least one array to concatenate" := by
  have h0 : 0 ∈ matchIndices 1 [(0 : ℚ), 0] [(0 : ℚ), 0] 0 0 :=
    mem_matchIndices.mpr ⟨0, 0, by simp, by simp, by norm_num, by norm_num⟩
  have h1 : 1 ∈ matchIndices 1 [(0 : ℚ), 0] [(0 : ℚ), 0] 0 0 :=
    mem_matchIndices.mpr ⟨0, 0, by simp, by simp, by norm_num, by norm_num⟩
  have hlen : 2 ≤ (matchIndices 1 [(0 : ℚ), 0] [(0 : ℚ), 0] 0 0).length := by
    rcases hM : matchIndices 1 [(0 : ℚ), 0] [(0 : ℚ), 0] 0 0 with _ | ⟨x, xs⟩
    · rw [hM] at h0
      exact absurd h0 (List.not_mem_nil 0)
    · rcases xs with _ | ⟨y, ys⟩
      · rw [hM, List.mem_singleton] at h0 h1
        omega
      · simp [List.length_cons]
  refine ⟨hlen, ?_⟩
  have hbeq : ((matchIndices 1 [(0 : ℚ), 0] [(0 : ℚ), 0] 0 0).length == 1) = false :=
    beq_eq_false_iff_ne.mpr (by omega)
  simp [crossMatch, List.zip, hbeq]

/-- Numpy fancy-indexing `data[idx]` for a list of row indices: the rows at
those indices, in the order of `idx`.  (Out-of-range indices raise in
numpy; every caller here supplies indices drawn from a permutation of
`range len(data)`, so the `filterMap` drops nothing.) -/
def selectIdx (data : List Row) (idx : List ℕ) : List Row :=
  idx.filterMap (fun i => data[i]?)

/-- The reservation split of `remove_bad_stars` (run_psfex.py lines
397-404): `n1 = int(reserve * n)` (truncation toward zero = floor for the
nonnegative fractions used), `reserve_data = data[perm[:n1]]`,
`data = data[perm[n1:]]`. -/
def reserveSplit (reserve : ℚ) (data : List Row) (perm : List ℕ) : List Row × List Row :=
  let n1 := (⌊reserve * data.length⌋).toNat
  (selectIdx data (perm.take n1), selectIdx data (perm.drop n1))

theorem selectIdx_length_eq (data : List Row) (idx : List ℕ)
    (h : ∀ i ∈ idx, i < data.length) : (selectIdx data idx).length = idx.length := by
  induction idx with
  | nil => rfl
  | cons i is ih =>
    have hi : i < data.length := h i (List.mem_cons_self i is)
    rw [selectIdx, List.filterMap_cons, List.getElem?_eq_getElem hi]
    simpa [selectIdx] using ih (fun j hj => h j (List.mem_cons_of_mem i hj))

theorem selectIdx_range (data : List Row) :
    selectIdx data (List.range data.length) = data := by
  induction data with
  | nil => rfl
  | cons a d ih =>
    rw [selectIdx, List.length_cons, List.range_succ_eq_map, List.filterMap_cons,
      List.getElem?_cons_zero, List.filterMap_map]
    have : (fun i => (a :: d)[i]?) ∘ Nat.succ = fun i => d[i]? := by
      funext i
      simp [List.getElem?_cons_succ]
    rw [this]
    simpa [selectIdx] using ih

/-- C6: with `perm` a permutation of the row indices and a reservation
fraction in [0, 1], the split is a partition: the reserved part has
exactly `⌊r·n⌋` rows, reserved and training sizes sum to `n`, the index
sets are disjoint, the two parts together are a permutation of the input,
and for duplicate-free catalogs the two row sets are disjoint. -/
theorem C6_reservation_partition (data : List Row) (perm : List ℕ) (r : ℚ)
    (hperm : perm.Perm (List.range data.length)) (h0 : 0 ≤ r) (h1 : r ≤ 1) :
    (reserveSplit r data perm).1.length = (⌊r * data.length⌋).toNat
    ∧ (reserveSplit r data perm).1.length + (reserveSplit r data perm).2.length = data.length
    ∧ List.Disjoint (perm.take (⌊r * data.length⌋).toNat) (perm.drop (⌊r * data.length⌋).toNat)
    ∧ ((reserveSplit r data perm).1 ++ (reserveSplit r data perm).2).Perm data
    ∧ (data.Nodup → (reserveSplit r data perm).1.Disjoint (reserveSplit r data perm).2) := by
  set n1 := (⌊r * data.length⌋).toNat with hn1def
  have hmem : ∀ i ∈ perm, i < data.length := fun i hi =>
    List.mem_range.mp (hperm.mem_iff.mp hi)
  have hlenp : perm.length = data.length := by
    rw [hperm.length_eq, List.length_range]
  have hn1 : n1 ≤ data.length := by
    rw [hn1def, Int.toNat_le]
    calc ⌊r * data.length⌋ ≤ ⌊((data.length : ℕ) : ℚ)⌋ :=
          Int.floor_le_floor (mul_le_of_le_one_left (by positivity) h1)
      _ = data.length := Int.floor_natCast _
  have hperm_nodup : perm.Nodup := hperm.nodup_iff.mpr (List.nodup_range _)
  have hjoin : (reserveSplit r data perm).1 ++ (reserveSplit r data perm).2
      = selectIdx data perm := by
    rw [reserveSplit]
    show selectIdx data (perm.take n1) ++ selectIdx data (perm.drop n1) = _
    rw [selectIdx, selectIdx, selectIdx, ← List.filterMap_append, List.take_append_drop]
  have hperm_all : (selectIdx data perm).Perm data := by
    have h := List.Perm.filterMap (fun i => data[i]?) hperm
    rw [show List.filterMap (fun i => data[i]?) perm = selectIdx data perm from rfl] at h
    rw [show List.filterMap (fun i => data[i]?) (List.range data.length)
      = selectIdx data (List.range data.length) from rfl, selectIdx_range] at h
    exact h
  have hlen1 : (reserveSplit r data perm).1.length = n1 := by
    rw [reserveSplit]
    show (selectIdx data (perm.take n1)).length = n1
    rw [selectIdx_length_eq data _ (fun i hi => hmem i (List.mem_of_mem_take hi)),
      List.length_take, hlenp]
    omega
  refine ⟨hlen1, ?_, ?_, hjoin ▸ hperm_all, ?_⟩
  · have := hperm_all.length_eq
    have hj := congrArg List.length hjoin
    rw [List.length_append] at hj
    omega
  · exact List.disjoint_take_drop hperm_nodup le_rfl
  · intro hnodup
    have : ((reserveSplit r data perm).1 ++ (reserveSplit r data perm).2).Nodup :=
      ((hjoin ▸ hperm_all).nodup_iff).mpr hnodup
    exact (List.nodup_append.mp this).2.2

/-- C6 witness: a 3-row catalog split with permutation [2, 0, 1] and
reservation fraction 1/3. -/
theorem C6_reservation_partition_witness :
    (reserveSplit (1/3) [boundaryRow, boundaryRow, boundaryRow] [2, 0, 1]).1.length
        = (⌊(1/3 : ℚ) * ([boundaryRow, boundaryRow, boundaryRow] : List Row).length⌋).toNat
    ∧ (reserveSplit (1/3) [boundaryRow, boundaryRow, boundaryRow] [2, 0, 1]).1.length
        + (reserveSplit (1/3) [boundaryRow, boundaryRow, boundaryRow] [2, 0, 1]).2.length
        = ([boundaryRow, boundaryRow, boundaryRow] : List Row).length
    ∧ List.Disjoint
        ([2, 0, 1].take (⌊(1/3 : ℚ) * ([boundaryRow, boundaryRow, boundaryRow] : List Row).length⌋).toNat)
        ([2, 0, 1].drop (⌊(1/3 : ℚ) * ([boundaryRow, boundaryRow, boundaryRow] : List Row).length⌋).toNat)
    ∧ ((reserveSplit (1/3) [boundaryRow, boundaryRow, boundaryRow] [2, 0, 1]).1
        ++ (reserveSplit (1/3) [boundaryRow, boundaryRow, boundaryRow] [2, 0, 1]).2).Perm
        [boundaryRow, boundaryRow, boundaryRow]
    ∧ (([boundaryRow, boundaryRow, boundaryRow] : List Row).Nodup →
        (reserveSplit (1/3) [boundaryRow, boundaryRow, boundaryRow] [2, 0, 1]).1.Disjoint
          (reserveSplit (1/3) [boundaryRow, boundaryRow, boundaryRow] [2, 0, 1]).2) :=
  C6_reservation_partition [boundaryRow, boundaryRow, boundaryRow] [2, 0, 1] (1/3)
    (by decide) (by norm_num) (by norm_num)

/-- The bright-end magnitude cut of `remove_bad_stars` (run_psfex.py lines
369-381): sort the MAG_AUTO column, take the median of the brightest
`nbright_stars` entries (`mags[0:nbright_stars]`, a clamped slice) as
`min_star`, and keep rows with `MAG_AUTO > min_star + mag_cut`.
On an empty catalog the debug print `mags[0]` raises `IndexError`
(and `numpy.median` of the empty slice is already NaN), modelled as the
`.error` branch.  When `nbright_stars = 0` the slice is empty, the median
is NaN and every `>` comparison with NaN is False, so no row survives. -/
def magCutStage (mag_cut : ℚ) (nbright_stars : ℕ) (data : List Row) :
    Except String (List Row) :=
  let mags := sortQ (data.map (fun r => r.mag))
  if data.isEmpty then
    .error "IndexError: index 0 is out of bounds for axis 0 with size 0"
  else if nbright_stars = 0 then
    .ok []
  else
    .ok (data.filter (fun r => decide (r.mag > medianQ (mags.take nbright_stars) + mag_cut)))

/-- C10 counterexample: with no rows surviving the quality filter, the
bright-end cut does not degrade gracefully but raises (the claim says the
cut never fails on small inputs). -/
theorem C10_empty_catalog_raises :
    magCutStage 2 10 [] = .error "IndexError: index 0 is out of bounds for axis 0 with size 0" := rfl

/-- C10 (amended): on a nonempty quality-filtered catalog with
`nbright_stars ≥ 1`, the survivors are exactly the rows strictly dimmer
than `median(m) + mag_cut` where `m` is the `min(nbright_stars, n)`
smallest magnitudes (every element of `m` is at most every remaining
sorted magnitude, and the sorted list is a permutation of the magnitude
column); a row whose magnitude equals the threshold exactly is
discarded. -/
theorem C10_bright_cut (mag_cut : ℚ) (nb : ℕ) (data : List Row)
    (hne : data ≠ []) (hnb : 1 ≤ nb) :
    ∃ res, magCutStage mag_cut nb data = .ok res
      ∧ res.Sublist data
      ∧ ((sortQ (data.map (fun r => r.mag))).take nb).length = min nb data.length
      ∧ (∀ x ∈ (sortQ (data.map (fun r => r.mag))).take nb,
          ∀ y ∈ (sortQ (data.map (fun r => r.mag))).drop nb, x ≤ y)
      ∧ (sortQ (data.map (fun r => r.mag))).Perm (data.map (fun r => r.mag))
      ∧ (∀ rr : Row, rr ∈ res ↔ rr ∈ data
          ∧ rr.mag > medianQ ((sortQ (data.map (fun r => r.mag))).take nb) + mag_cut)
      ∧ (∀ rr ∈ data,
          rr.mag = medianQ ((sortQ (data.map (fun r => r.mag))).take nb) + mag_cut
            → rr ∉ res) := by
  set s := sortQ (data.map (fun r => r.mag)) with hs
  have hsorted : List.Sorted (fun a b : ℚ => a ≤ b) s := List.sorted_insertionSort _ _
  have hempty : data.isEmpty = false := by
    cases data with
    | nil => exact absurd rfl hne
    | cons a d => rfl
  refine ⟨data.filter (fun r => decide (r.mag > medianQ (s.take nb) + mag_cut)),
    ?_, List.filter_sublist data, ?_, ?_, List.perm_insertionSort _ _, ?_, ?_⟩
  · rw [magCutStage]
    simp only [hempty, Bool.false_eq_true, if_false]
    rw [if_neg (by omega)]
  · rw [List.length_take, hs, length_sortQ, List.length_map]
  · intro x hx y hy
    have := List.pairwise_append.mp (by rw [List.take_append_drop nb s]; exact hsorted)
    exact this.2.2 x hx y hy
  · intro rr
    rw [List.mem_filter, decide_eq_true_eq]
  · intro rr hmem heq hin
    rw [List.mem_filter, decide_eq_true_eq, heq] at hin
    exact absurd hin.2 (lt_irrefl _)

/-- A bright sample row (magnitude 10). -/
def brightRow : Row := ⟨2, 0, 3, 3, 10, 1⟩

/-- A dim sample row (magnitude 15). -/
def dimRow : Row := ⟨3, 0, 4, 4, 15, 1⟩

/-- C10 witness: the amended bright-cut theorem applied to a concrete
two-row catalog with the default `nbright_stars = 10` and cut 2. -/
theorem C10_bright_cut_witness :
    ∃ res, magCutStage 2 10 [brightRow, dimRow] = .ok res
      ∧ res.Sublist [brightRow, dimRow]
      ∧ ((sortQ (([brightRow, dimRow] : List Row).map (fun r => r.mag))).take 10).length
          = min 10 ([brightRow, dimRow] : List Row).length
      ∧ (∀ x ∈ (sortQ (([brightRow, dimRow] : List Row).map (fun r => r.mag))).take 10,
          ∀ y ∈ (sortQ (([brightRow, dimRow] : List Row).map (fun r => r.mag))).drop 10, x ≤ y)
      ∧ (sortQ (([brightRow, dimRow] : List Row).map (fun r => r.mag))).Perm
          (([brightRow, dimRow] : List Row).map (fun r => r.mag))
      ∧ (∀ rr : Row, rr ∈ res ↔ rr ∈ [brightRow, dimRow]
          ∧ rr.mag > medianQ ((sortQ (([brightRow, dimRow] : List Row).map (fun r => r.mag))).take 10) + 2)
      ∧ (∀ rr ∈ [brightRow, dimRow],
          rr.mag = medianQ ((sortQ (([brightRow, dimRow] : List Row).map (fun r => r.mag))).take 10) + 2
            → rr ∉ res) :=
  C10_bright_cut 2 10 [brightRow, dimRow] (by simp) (by norm_num)

/-- The quality filter of `remove_bad_stars` (run_psfex.py lines 361-364):
keep the rows with `FLAGS == 0`. -/
def stageQuality (catData : List Row) : List Row :=
  catData.filter (fun r => r.flags == 0)

/-- The bright-end cut block of `remove_bad_stars` (lines 369-381), carrying
the (catalog, artifact-name) pair: when `mag_cut > 0` apply the cut and
rewrite the name by `replace('psfcat', 'psfcat_magcut_%0.1f' % mag_cut)`. -/
def stageMag (mag_cut : ℚ) (nbright_stars : ℕ) (dn : List Row × String) :
    Except String (List Row × String) :=
  if mag_cut > 0 then
    match magCutStage mag_cut nbright_stars dn.1 with
    | .error e => .error e
    | .ok d => .ok (d, strReplace dn.2 "psfcat" ("psfcat_magcut_" ++ fmtFixed 1 mag_cut))
  else .ok dn

/-- The faint-end cut block (lines 383-390): when `max_mag > 0` keep rows
with `MAG_AUTO < max_mag` and rewrite the name with the maxmag token. -/
def stageMaxMag (max_mag : ℚ) (dn : List Row × String) : List Row × String :=
  if max_mag > 0 then
    (dn.1.filter (fun r => decide (r.mag < max_mag)),
      strReplace dn.2 "psfcat" ("psfcat_maxmag_" ++ fmtFixed 1 max_mag))
  else dn

/-- The tapebump block (lines 392-395): when enabled, delegate to
`exclude_tapebumps` with margin `tapebump_extra * fwhm` and rewrite the
name with the `_tb` token. -/
def stageTb (tbd : List Region) (use_tapebumps : Bool) (extra : ℚ)
    (dn : List Row × String) : Except String (List Row × String) :=
  if use_tapebumps then
    match exclude_tapebumps tbd dn.1 extra with
    | .error e => .error e
    | .ok d => .ok (d, strReplace dn.2 "psfcat" "psfcat_tb")
  else .ok dn

/-- The result of `remove_bad_stars`: the final artifact name, the rows it
writes there, the reserved rows, and the artifact names written (the
reserve table when reservation is on, then the filtered catalog). -/
structure RBSResult where
  new_cat_file : String
  data : List Row
  reserved : List Row
  writes : List String
deriving DecidableEq, Repr

/-- The reservation block (lines 397-421): when `reserve` is truthy
(`if reserve:`), split off `int(reserve*n)` rows chosen by the supplied
permutation, rewrite the name with the reserve token and also write
`wdir/root_reserve.fits`; the function then always writes the surviving
rows to the (possibly renamed) catalog artifact (lines 423-433). -/
def stageReserve (wdir root : String) (reserve : ℚ) (rperm : ℕ → List ℕ)
    (dn : List Row × String) : RBSResult :=
  if reserve ≠ 0 then
    let pr := reserveSplit reserve dn.1 (rperm dn.1.length)
    let nm := strReplace dn.2 "psfcat" ("psfcat_reserve_" ++ fmtFixed 2 reserve)
    { new_cat_file := nm, data := pr.2, reserved := pr.1,
      writes := [wdir ++ "/" ++ root ++ "_reserve.fits", nm] }
  else
    { new_cat_file := dn.2, data := dn.1, reserved := [], writes := [dn.2] }

/-- `remove_bad_stars` (run_psfex.py lines 345-435): quality filter, then
the optional bright cut, faint cut, tapebump exclusion and reservation
split, in that order, threading the artifact name through each block. -/
def remove_bad_stars (wdir root cat_file : String) (catData : List Row)
    (tbd : List Region) (mag_cut : ℚ) (nbright_stars : ℕ) (max_mag : ℚ)
    (use_tapebumps : Bool) (tapebump_extra : ℚ) (reserve : ℚ) (fwhm : ℚ)
    (rperm : ℕ → List ℕ) : Except String RBSResult :=
  match stageMag mag_cut nbright_stars (stageQuality catData, cat_file) with
  | .error e => .error e
  | .ok dn2 =>
    match stageTb tbd use_tapebumps (tapebump_extra * fwhm) (stageMaxMag max_mag dn2) with
    | .error e => .error e
    | .ok dn4 => .ok (stageReserve wdir root reserve rperm dn4)

/-- Star-count thresholds and flag bits (run_psfex.py lines 16-29). -/
def FEW_STARS : ℕ := 20

def MANY_STARS_FRAC : ℚ := 1/2

/-- 3.6 arcsec / 0.26 arcsec per pixel = 13.8 pixels. -/
def HIGH_FWHM : ℚ := 69/5

def NO_STARS_FLAG : ℕ := 1

def TOO_FEW_STARS_FLAG : ℕ := 2

def TOO_MANY_STARS_FLAG : ℕ := 4

def TOO_HIGH_FWHM_FLAG : ℕ := 8

def FINDSTARS_FAILURE : ℕ := 16

def PSFEX_FAILURE : ℕ := 32

def ERROR_FLAG : ℕ := 64

/-- Numpy boolean-mask selection `data[mask]` (run_psfex.py line 334). -/
def maskSelect (data : List Row) (mask : List Bool) : List Row :=
  ((data.zip mask).filter (fun p => p.2)).map (fun p => p.1)

/-- The blur-width checks of main (lines 719-724): the median of the star
fwhm column against the absolute threshold and against 1.5 times the
header fwhm. -/
def fwhmFlags (md fwhm : ℚ) : ℕ :=
  (if md > HIGH_FWHM then TOO_HIGH_FWHM_FLAG else 0) |||
    (if md > 3/2 * fwhm then TOO_HIGH_FWHM_FLAG else 0)

/-- The run options of main that the refinement pipeline reads. -/
structure MainConfig where
  mag_cut : ℚ
  nbright_stars : ℕ
  max_mag : ℚ
  use_tapebumps : Bool
  tapebump_extra : ℚ
  reserve : ℚ

/-- What one per-detector iteration of main's file loop produces: the
accumulated quality flag, the catalog artifacts written after findstars
ran, whether the try-block ran to completion (no anomaly short-circuited
it), and the surviving-row count remove_bad_stars reported (when it was
invoked and returned). -/
structure UnitResult where
  flag : ℕ
  writes : List String
  completed : Bool
  nFinal : Option ℕ

/-- Main's continuation after `remove_bad_stars` (lines 703-724): recheck
the star count (`nstars < FEW_STARS` sets the too-few bit), raise
`NoStarsException` when `nstars <= 1` (caught at line 770, adding
`NO_STARS_FLAG`), then run `get_fwhm` and the blur-width checks.  A
Python exception out of `remove_bad_stars` itself is caught by the
generic handler (line 773) and adds `ERROR_FLAG`. -/
def mainStepAfterRBS (flag1 : ℕ) (fsName : String) (fwhm : ℚ)
    (rbsRes : Except String RBSResult) : UnitResult :=
  match rbsRes with
  | .error _ =>
    { flag := flag1 ||| ERROR_FLAG, writes := [fsName], completed := false, nFinal := none }
  | .ok rbs =>
    let flag2 := flag1 ||| (if rbs.data.length < FEW_STARS then TOO_FEW_STARS_FLAG else 0)
    if rbs.data.length ≤ 1 then
      { flag := flag2 ||| NO_STARS_FLAG, writes := fsName :: rbs.writes,
        completed := false, nFinal := some rbs.data.length }
    else
      match get_fwhm (rbs.data.map (fun r => r.flux_radius)) with
      | .error _ =>
        { flag := flag2 ||| ERROR_FLAG, writes := fsName :: rbs.writes,
          completed := false, nFinal := some rbs.data.length }
      | .ok q =>
        { flag := flag2 ||| fwhmFlags q.2.2.2 fwhm, writes := fsName :: rbs.writes,
          completed := true, nFinal := some rbs.data.length }

/-- One per-detector iteration of main's file loop (run_psfex.py lines
684-724) with `use_findstars` on, starting from the findstars outcome:
`starFlags` is the `star_flag==1` column, `catData` the SExtractor
catalog rows.  `run_findstars` raises `NoStarsException` when no object
was flagged a star (line 327, before any catalog is written); otherwise
it writes the `_findstars` catalog and main checks the star count
against `FEW_STARS` and `MANY_STARS_FRAC * ntot` (lines 693-698).  The
pipeline `remove_bad_stars` is invoked only when a magnitude cut,
tapebump exclusion or reservation is configured (line 702); its `tbdata`
argument is only assigned when `use_tapebumps` is on (line 556), so that
call raises `NameError` — caught as `ERROR_FLAG` — when the condition
holds with tapebumps disabled. -/
def mainStep (cfg : MainConfig) (tbd : List Region) (fwhm : ℚ)
    (wdir root cat_file : String) (catData : List Row) (starFlags : List Bool)
    (rperm : ℕ → List ℕ) : UnitResult :=
  let ntot := starFlags.length
  let nstars := (starFlags.filter (fun b => b)).length
  if nstars = 0 then
    { flag := NO_STARS_FLAG, writes := [], completed := false, nFinal := none }
  else
    let fsName := strReplace cat_file "psfcat" "psfcat_findstars"
    let fsData := maskSelect catData starFlags
    let flag1 := (if nstars < FEW_STARS then TOO_FEW_STARS_FLAG else 0) |||
      (if (nstars : ℚ) > MANY_STARS_FRAC * ntot then TOO_MANY_STARS_FLAG else 0)
    if cfg.mag_cut > 0 ∨ cfg.use_tapebumps = true ∨ cfg.max_mag > 0 ∨ cfg.reserve > 0 then
      if cfg.use_tapebumps = false then
        { flag := flag1 ||| ERROR_FLAG, writes := [fsName], completed := false, nFinal := none }
      else
        mainStepAfterRBS flag1 fsName fwhm
          (remove_bad_stars wdir root fsName fsData tbd cfg.mag_cut cfg.nbright_stars
            cfg.max_mag cfg.use_tapebumps cfg.tapebump_extra cfg.reserve fwhm rperm)
    else
      match get_fwhm (fsData.map (fun r => r.flux_radius)) with
      | .error _ =>
        { flag := flag1 ||| ERROR_FLAG, writes := [fsName], completed := false, nFinal := none }
      | .ok q =>
        { flag := flag1 ||| fwhmFlags q.2.2.2 fwhm, writes := [fsName],
          completed := true, nFinal := none }

theorem get_fwhm_ok (l : List ℚ) (h : l ≠ []) : ∃ q, get_fwhm l = .ok q := by
  cases l with
  | nil => exact absurd rfl h
  | cons x xs => exact ⟨_, rfl⟩

theorem magCutStage_ok_le {mc : ℚ} {nb : ℕ} {d d2 : List Row}
    (h : magCutStage mc nb d = .ok d2) : d2.length ≤ d.length := by
  simp only [magCutStage] at h
  split at h
  · exact absurd h (by simp)
  · split at h
    · injection h with h'
      rw [← h']
      simp
    · injection h with h'
      rw [← h']
      exact List.length_filter_le _ _

theorem stageMag_ok_le {mc : ℚ} {nb : ℕ} {dn dn2 : List Row × String}
    (h : stageMag mc nb dn = .ok dn2) : dn2.1.length ≤ dn.1.length := by
  rw [stageMag] at h
  split at h
  · rcases hJ : magCutStage mc nb dn.1 with e | d
    · rw [hJ] at h
      exact absurd h (by simp)
    · rw [hJ] at h
      injection h with h'
      rw [← h']
      exact magCutStage_ok_le hJ
  · injection h with h'
    rw [← h']

theorem stageMaxMag_le (mm : ℚ) (dn : List Row × String) :
    (stageMaxMag mm dn).1.length ≤ dn.1.length := by
  rw [stageMaxMag]
  split
  · exact List.length_filter_le _ _
  · exact le_rfl

theorem exclude_tapebumps_ok_le {tbd : List Region} {d d2 : List Row} {e : ℚ}
    (h : exclude_tapebumps tbd d e = .ok d2) : d2.length ≤ d.length := by
  simp only [exclude_tapebumps] at h
  split at h
  · exact absurd h (by simp)
  · injection h with h'
    rw [← h']
    exact List.length_filter_le _ _

theorem stageTb_ok_le {tbd : List Region} {utb : Bool} {e : ℚ} {dn dn2 : List Row × String}
    (h : stageTb tbd utb e dn = .ok dn2) : dn2.1.length ≤ dn.1.length := by
  rw [stageTb] at h
  split at h
  · rcases hJ : exclude_tapebumps tbd dn.1 e with er | d
    · rw [hJ] at h
      exact absurd h (by simp)
    · rw [hJ] at h
      injection h with h'
      rw [← h']
      exact exclude_tapebumps_ok_le hJ
  · injection h with h'
    rw [← h']

theorem stageReserve_data_le (w r : String) (res : ℚ) (rperm : ℕ → List ℕ)
    (dn : List Row × String) (hp : ∀ n, (rperm n).length = n) :
    (stageReserve w r res rperm dn).data.length ≤ dn.1.length := by
  rw [stageReserve]
  split
  · show (selectIdx dn.1 ((rperm dn.1.length).drop _)).length ≤ _
    calc (selectIdx dn.1 ((rperm dn.1.length).drop _)).length
        ≤ ((rperm dn.1.length).drop _).length := List.length_filterMap_le _ _
      _ ≤ (rperm dn.1.length).length := by rw [List.length_drop]; omega
      _ = dn.1.length := hp _
  · exact le_rfl

theorem rbs_data_le {wdir root cat_file : String} {catData : List Row}
    {tbd : List Region} {mc : ℚ} {nb : ℕ} {mm : ℚ} {utb : Bool} {te res fw : ℚ}
    {rperm : ℕ → List ℕ} {rbs : RBSResult}
    (hp : ∀ n, (rperm n).length = n)
    (h : remove_bad_stars wdir root cat_file catData tbd mc nb mm utb te res fw rperm
      = .ok rbs) :
    rbs.data.length ≤ catData.length := by
  rw [remove_bad_stars] at h
  rcases h2 : stageMag mc nb (stageQuality catData, cat_file) with e | dn2
  · rw [h2] at h
    exact absurd h (by simp)
  · rw [h2] at h
    dsimp only [] at h
    rcases h4 : stageTb tbd utb (te * fw) (stageMaxMag mm dn2) with e | dn4
    · rw [h4] at h
      exact absurd h (by simp)
    · rw [h4] at h
      injection h with h'
      calc rbs.data.length = (stageReserve wdir root res rperm dn4).data.length := by rw [h']
        _ ≤ dn4.1.length := stageReserve_data_le _ _ _ _ _ hp
        _ ≤ (stageMaxMag mm dn2).1.length := stageTb_ok_le h4
        _ ≤ dn2.1.length := stageMaxMag_le _ _
        _ ≤ (stageQuality catData, cat_file).1.length := stageMag_ok_le h2
        _ ≤ catData.length := List.length_filter_le _ _

theorem maskSelect_length (data : List Row) (mask : List Bool)
    (h : data.length = mask.length) :
    (maskSelect data mask).length = (mask.filter (fun b => b)).length := by
  induction data generalizing mask with
  | nil =>
    cases mask with
    | nil => rfl
    | cons b bs => simp at h
  | cons a d ih =>
    cases mask with
    | nil => simp at h
    | cons b bs =>
      have h' : d.length = bs.length := by simpa using h
      cases b with
      | false => simpa [maskSelect, List.filter_cons] using ih bs h'
      | true =>
        simp only [maskSelect, List.zip_cons_cons, List.filter_cons, List.length_cons] at *
        simpa [maskSelect] using ih bs h'

theorem testBit_lor_left {a : ℕ} (b : ℕ) {i : ℕ} (h : a.testBit i = true) :
    (a ||| b).testBit i = true := by
  rw [Nat.testBit_lor, h, Bool.true_or]

theorem testBit_lor_right (a : ℕ) {b i : ℕ} (h : b.testBit i = true) :
    (a ||| b).testBit i = true := by
  rw [Nat.testBit_lor, h, Bool.or_true]

theorem afterRBS_flag_shape (flag1 : ℕ) (fsName : String) (fw : ℚ)
    (rr : Except String RBSResult) :
    ∃ X, (mainStepAfterRBS flag1 fsName fw rr).flag = flag1 ||| X := by
  rcases rr with e | rbs
  · exact ⟨ERROR_FLAG, rfl⟩
  · by_cases hle : rbs.data.length ≤ 1
    · exact ⟨(if rbs.data.length < FEW_STARS then TOO_FEW_STARS_FLAG else 0) ||| NO_STARS_FLAG,
        by simp [mainStepAfterRBS, hle, Nat.lor_assoc]⟩
    · rcases hg : get_fwhm (rbs.data.map (fun r => r.flux_radius)) with e | q
      · exact ⟨(if rbs.data.length < FEW_STARS then TOO_FEW_STARS_FLAG else 0) ||| ERROR_FLAG,
          by simp [mainStepAfterRBS, hle, hg, Nat.lor_assoc]⟩
      · exact ⟨(if rbs.data.length < FEW_STARS then TOO_FEW_STARS_FLAG else 0) ||| fwhmFlags q.2.2.2 fw,
          by simp [mainStepAfterRBS, hle, hg, Nat.lor_assoc]⟩

theorem afterRBS_nFinal (flag1 : ℕ) (fsName : String) (fw : ℚ)
    (rr : Except String RBSResult) (n : ℕ)
    (h : (mainStepAfterRBS flag1 fsName fw rr).nFinal = some n) :
    ∃ rbs, rr = .ok rbs ∧ rbs.data.length = n
      ∧ (∃ Y, (mainStepAfterRBS flag1 fsName fw rr).flag
          = (flag1 ||| (if n < FEW_STARS then TOO_FEW_STARS_FLAG else 0)) ||| Y)
      ∧ (2 ≤ n → (mainStepAfterRBS flag1 fsName fw rr).completed = true) := by
  rcases rr with e | rbs
  · exact absurd h (by simp [mainStepAfterRBS])
  · refine ⟨rbs, rfl, ?_⟩
    by_cases hle : rbs.data.length ≤ 1
    · have hn : rbs.data.length = n := by
        simpa [mainStepAfterRBS, hle] using h
      have hle' : n ≤ 1 := hn ▸ hle
      refine ⟨hn, ⟨NO_STARS_FLAG, ?_⟩, fun h2 => absurd hle' (by omega)⟩
      simp [mainStepAfterRBS, hle', hn, Nat.lor_assoc]
    · have hne : rbs.data.map (fun r => r.flux_radius) ≠ [] := by
        cases hd : rbs.data with
        | nil => rw [hd] at hle; simp at hle
        | cons a l => simp [hd]
      obtain ⟨q, hq⟩ := get_fwhm_ok _ hne
      have hn : rbs.data.length = n := by
        simpa [mainStepAfterRBS, hle, hq] using h
      have hle' : ¬ n ≤ 1 := hn ▸ hle
      refine ⟨hn, ⟨fwhmFlags q.2.2.2 fw, ?_⟩, fun _ => ?_⟩
      · simp [mainStepAfterRBS, hle', hq, hn, Nat.lor_assoc]
      · simp [mainStepAfterRBS, hle, hq]

theorem mainStep_eq_of_found (cfg : MainConfig) (tbd : List Region) (fwhm : ℚ)
    (wdir root cat_file : String) (catData : List Row) (starFlags : List Bool)
    (rperm : ℕ → List ℕ)
    (hns : (starFlags.filter (fun b => b)).length ≠ 0) :
    mainStep cfg tbd fwhm wdir root cat_file catData starFlags rperm
      = (if cfg.mag_cut > 0 ∨ cfg.use_tapebumps = true ∨ cfg.max_mag > 0 ∨ cfg.reserve > 0 then
          if cfg.use_tapebumps = false then
            { flag := ((if (starFlags.filter (fun b => b)).length < FEW_STARS then TOO_FEW_STARS_FLAG else 0) |||
                (if ((starFlags.filter (fun b => b)).length : ℚ) > MANY_STARS_FRAC * starFlags.length then TOO_MANY_STARS_FLAG else 0)) ||| ERROR_FLAG,
              writes := [strReplace cat_file "psfcat" "psfcat_findstars"],
              completed := false, nFinal := none }
          else
            mainStepAfterRBS
              ((if (starFlags.filter (fun b => b)).length < FEW_STARS then TOO_FEW_STARS_FLAG else 0) |||
                (if ((starFlags.filter (fun b => b)).length : ℚ) > MANY_STARS_FRAC * starFlags.length then TOO_MANY_STARS_FLAG else 0))
              (strReplace cat_file "psfcat" "psfcat_findstars") fwhm
              (remove_bad_stars wdir root (strReplace cat_file "psfcat" "psfcat_findstars")
                (maskSelect catData starFlags) tbd cfg.mag_cut cfg.nbright_stars
                cfg.max_mag cfg.use_tapebumps cfg.tapebump_extra cfg.reserve fwhm rperm)
        else
          match get_fwhm ((maskSelect catData starFlags).map (fun r => r.flux_radius)) with
          | .error _ =>
            { flag := ((if (starFlags.filter (fun b => b)).length < FEW_STARS then TOO_FEW_STARS_FLAG else 0) |||
                (if ((starFlags.filter (fun b => b)).length : ℚ) > MANY_STARS_FRAC * starFlags.length then TOO_MANY_STARS_FLAG else 0)) ||| ERROR_FLAG,
              writes := [strReplace cat_file "psfcat" "psfcat_findstars"],
              completed := false, nFinal := none }
          | .ok q =>
            { flag := ((if (starFlags.filter (fun b => b)).length < FEW_STARS then TOO_FEW_STARS_FLAG else 0) |||
                (if ((starFlags.filter (fun b => b)).length : ℚ) > MANY_STARS_FRAC * starFlags.length then TOO_MANY_STARS_FLAG else 0)) ||| fwhmFlags q.2.2.2 fwhm,
              writes := [strReplace cat_file "psfcat" "psfcat_findstars"],
              completed := true, nFinal := none }) := by
  simp only [mainStep]
  rw [if_neg hns]

/-- C5: with the star finder having flagged at least one object, the
too-few bit is in the final flag whenever the findstars star count is
below `FEW_STARS`, the too-many bit whenever that count exceeds
`MANY_STARS_FRAC` of the total object count; and when the refinement
pipeline ran and reported `n` surviving rows, the too-few bit is set
whenever `n < FEW_STARS`, the too-many bit whenever `n` exceeds the
fraction of the total (the final catalog only shrinks, so the earlier
check already fired), and with `n ≥ 2` both bits are non-fatal: the
iteration runs to completion. -/
theorem C5_flag_thresholds (cfg : MainConfig) (tbd : List Region) (fwhm : ℚ)
    (wdir root cat_file : String) (catData : List Row) (starFlags : List Bool)
    (rperm : ℕ → List ℕ)
    (hperm : ∀ n, (rperm n).Perm (List.range n))
    (hlen : catData.length = starFlags.length)
    (hns : (starFlags.filter (fun b => b)).length ≠ 0) :
    ((starFlags.filter (fun b => b)).length < FEW_STARS →
      (mainStep cfg tbd fwhm wdir root cat_file catData starFlags rperm).flag.testBit 1 = true)
    ∧ (((starFlags.filter (fun b => b)).length : ℚ) > MANY_STARS_FRAC * starFlags.length →
      (mainStep cfg tbd fwhm wdir root cat_file catData starFlags rperm).flag.testBit 2 = true)
    ∧ ∀ n : ℕ,
        (mainStep cfg tbd fwhm wdir root cat_file catData starFlags rperm).nFinal = some n →
        (n < FEW_STARS →
          (mainStep cfg tbd fwhm wdir root cat_file catData starFlags rperm).flag.testBit 1 = true)
        ∧ ((n : ℚ) > MANY_STARS_FRAC * starFlags.length →
          (mainStep cfg tbd fwhm wdir root cat_file catData starFlags rperm).flag.testBit 2 = true)
        ∧ (2 ≤ n →
          (mainStep cfg tbd fwhm wdir root cat_file catData starFlags rperm).completed = true) := by
  have hplen : ∀ n, (rperm n).length = n := fun n => by
    rw [(hperm n).length_eq, List.length_range]
  rw [mainStep_eq_of_found cfg tbd fwhm wdir root cat_file catData starFlags rperm hns]
  have hbit1 : ∀ X : ℕ, (starFlags.filter (fun b => b)).length < FEW_STARS →
      (((if (starFlags.filter (fun b => b)).length < FEW_STARS then TOO_FEW_STARS_FLAG else 0) |||
        (if ((starFlags.filter (fun b => b)).length : ℚ) > MANY_STARS_FRAC * starFlags.length then TOO_MANY_STARS_FLAG else 0)) ||| X).testBit 1 = true := by
    intro X h
    exact testBit_lor_left X (testBit_lor_left _ (by rw [if_pos h]; decide))
  have hbit2 : ∀ X : ℕ, ((starFlags.filter (fun b => b)).length : ℚ) > MANY_STARS_FRAC * starFlags.length →
      (((if (starFlags.filter (fun b => b)).length < FEW_STARS then TOO_FEW_STARS_FLAG else 0) |||
        (if ((starFlags.filter (fun b => b)).length : ℚ) > MANY_STARS_FRAC * starFlags.length then TOO_MANY_STARS_FLAG else 0)) ||| X).testBit 2 = true := by
    intro X h
    exact testBit_lor_left X (testBit_lor_right _ (by rw [if_pos h]; decide))
  by_cases hinv : cfg.mag_cut > 0 ∨ cfg.use_tapebumps = true ∨ cfg.max_mag > 0 ∨ cfg.reserve > 0
  · rw [if_pos hinv]
    by_cases hutb : cfg.use_tapebumps = false
    · rw [if_pos hutb]
      exact ⟨fun h => hbit1 _ h, fun h => hbit2 _ h, fun n hn => by exact absurd hn (by simp)⟩
    · rw [if_neg hutb]
      refine ⟨?_, ?_, ?_⟩
      · intro h
        obtain ⟨X, hX⟩ := afterRBS_flag_shape _ _ _ _
        rw [hX]
        exact hbit1 X h
      · intro h
        obtain ⟨X, hX⟩ := afterRBS_flag_shape _ _ _ _
        rw [hX]
        exact hbit2 X h
      · intro n hn
        obtain ⟨rbs, hok, hlenn, ⟨Y, hY⟩, hcomp⟩ := afterRBS_nFinal _ _ _ _ n hn
        have hle : n ≤ (starFlags.filter (fun b => b)).length := by
          have h1 := rbs_data_le hplen hok
          rw [hlenn] at h1
          rw [maskSelect_length catData starFlags hlen] at h1
          exact h1
        refine ⟨?_, ?_, hcomp⟩
        · intro hfew
          rw [hY]
          exact testBit_lor_left _ (testBit_lor_right _ (by rw [if_pos hfew]; decide))
        · intro hmany
          rw [hY]
          refine testBit_lor_left Y (hbit2 _ ?_)
          calc MANY_STARS_FRAC * (starFlags.length : ℚ) < (n : ℚ) := hmany
            _ ≤ ((starFlags.filter (fun b => b)).length : ℚ) := by exact_mod_cast hle
  · rw [if_neg hinv]
    rcases hg : get_fwhm ((maskSelect catData starFlags).map (fun r => r.flux_radius)) with e | q
    · simp only [hg]
      exact ⟨fun h => hbit1 _ h, fun h => hbit2 _ h, fun n hn => by exact absurd hn (by simp)⟩
    · simp only [hg]
      exact ⟨fun h => hbit1 _ h, fun h => hbit2 _ h, fun n hn => by exact absurd hn (by simp)⟩

/-- A star far from the sample region (used by the pipeline witnesses). -/
def farRowA : Row := ⟨4, 0, 50, 50, 12, 1⟩

/-- A second star far from the sample region. -/
def farRowB : Row := ⟨5, 0, 60, 60, 13, 1⟩

/-- C5 witness: a two-star detector unit trips both the too-few check
(2 < 20) and the too-many check (2 > half of 2) in the final flag. -/
theorem C5_flag_thresholds_witness :
    ((mainStep ⟨-1, 10, -1, true, 2, 0⟩ [sampleRegion] 4 "w" "r" "D00_psfcat.fits"
        [farRowA, farRowB] [true, true] (fun n => List.range n)).flag.testBit 1 = true)
    ∧ ((mainStep ⟨-1, 10, -1, true, 2, 0⟩ [sampleRegion] 4 "w" "r" "D00_psfcat.fits"
        [farRowA, farRowB] [true, true] (fun n => List.range n)).flag.testBit 2 = true) := by
  have h := C5_flag_thresholds ⟨-1, 10, -1, true, 2, 0⟩ [sampleRegion] 4 "w" "r" "D00_psfcat.fits"
    [farRowA, farRowB] [true, true] (fun n => List.range n)
    (fun n => List.Perm.refl _) rfl (by decide)
  refine ⟨h.1 (by decide), h.2.1 ?_⟩
  show ((List.filter (fun b => b) [true, true]).length : ℚ)
    > MANY_STARS_FRAC * (([true, true] : List Bool).length : ℚ)
  norm_num [MANY_STARS_FRAC]

/-- With no row passing the quality filter (bright/faint cuts off,
tapebumps on, nonempty region table), the tapebump stage still runs, the
renamed catalog artifact is still written, and only the later
`nstars <= 1` check raises the no-stars anomaly. -/
theorem mainStep_empty_quality (cfg : MainConfig) (tbd : List Region) (fwhm : ℚ)
    (wdir root cat_file : String) (catData : List Row) (starFlags : List Bool)
    (rperm : ℕ → List ℕ)
    (hmc : cfg.mag_cut ≤ 0) (hmm : cfg.max_mag ≤ 0) (hutb : cfg.use_tapebumps = true)
    (hres : cfg.reserve = 0) (htbd : tbd ≠ [])
    (hns : (starFlags.filter (fun b => b)).length ≠ 0)
    (hq : stageQuality (maskSelect catData starFlags) = []) :
    (mainStep cfg tbd fwhm wdir root cat_file catData starFlags rperm).flag.testBit 0 = true
    ∧ (mainStep cfg tbd fwhm wdir root cat_file catData starFlags rperm).nFinal = some 0
    ∧ (mainStep cfg tbd fwhm wdir root cat_file catData starFlags rperm).completed = false
    ∧ (mainStep cfg tbd fwhm wdir root cat_file catData starFlags rperm).writes
        = [strReplace cat_file "psfcat" "psfcat_findstars",
           strReplace (strReplace cat_file "psfcat" "psfcat_findstars") "psfcat" "psfcat_tb"] := by
  have hmc' : ¬ (cfg.mag_cut > 0) := not_lt.mpr hmc
  have hmm' : ¬ (cfg.max_mag > 0) := not_lt.mpr hmm
  have htbd' : tbd.isEmpty = false := by
    cases tbd with
    | nil => exact absurd rfl htbd
    | cons a l => rfl
  have hrbs : remove_bad_stars wdir root (strReplace cat_file "psfcat" "psfcat_findstars")
      (maskSelect catData starFlags) tbd cfg.mag_cut cfg.nbright_stars cfg.max_mag
      cfg.use_tapebumps cfg.tapebump_extra cfg.reserve fwhm rperm
      = .ok ⟨strReplace (strReplace cat_file "psfcat" "psfcat_findstars") "psfcat" "psfcat_tb",
          [], [],
          [strReplace (strReplace cat_file "psfcat" "psfcat_findstars") "psfcat" "psfcat_tb"]⟩ := by
    simp [remove_bad_stars, stageMag, stageMaxMag, stageTb, stageReserve,
      exclude_tapebumps, hq, hutb, hres, htbd', hmc', hmm']
  rw [mainStep_eq_of_found cfg tbd fwhm wdir root cat_file catData starFlags rperm hns,
    if_pos (Or.inr (Or.inl hutb)), if_neg (by rw [hutb]; simp), hrbs]
  have hrec : mainStepAfterRBS
      ((if (starFlags.filter (fun b => b)).length < FEW_STARS then TOO_FEW_STARS_FLAG else 0) |||
        (if ((starFlags.filter (fun b => b)).length : ℚ) > MANY_STARS_FRAC * starFlags.length then TOO_MANY_STARS_FLAG else 0))
      (strReplace cat_file "psfcat" "psfcat_findstars") fwhm
      (.ok ⟨strReplace (strReplace cat_file "psfcat" "psfcat_findstars") "psfcat" "psfcat_tb",
          [], [],
          [strReplace (strReplace cat_file "psfcat" "psfcat_findstars") "psfcat" "psfcat_tb"]⟩)
      = { flag := (((if (starFlags.filter (fun b => b)).length < FEW_STARS then TOO_FEW_STARS_FLAG else 0) |||
            (if ((starFlags.filter (fun b => b)).length : ℚ) > MANY_STARS_FRAC * starFlags.length then TOO_MANY_STARS_FLAG else 0)) |||
            TOO_FEW_STARS_FLAG) ||| NO_STARS_FLAG,
          writes := [strReplace cat_file "psfcat" "psfcat_findstars",
            strReplace (strReplace cat_file "psfcat" "psfcat_findstars") "psfcat" "psfcat_tb"],
          completed := false, nFinal := some 0 } := by
    norm_num [mainStepAfterRBS, FEW_STARS]
  rw [hrec]
  exact ⟨testBit_lor_right _ (by decide), rfl, rfl, rfl⟩

/-- C2 (amended): when no row passes the quality filter, the pipeline does
not abort at that point.  With the bright and faint cuts disabled and
tapebump exclusion enabled over a nonempty region table, the tapebump
stage still executes on the empty catalog (its name token is appended),
the filtered catalog artifact is still written, and only afterwards does
the `nstars <= 1` check raise the no-stars anomaly — the `NO_STARS` bit
is set in the accumulated flag and the iteration does not complete. -/
theorem C2_no_stars_after_quality (cfg : MainConfig) (tbd : List Region) (fwhm : ℚ)
    (wdir root cat_file : String) (catData : List Row) (starFlags : List Bool)
    (rperm : ℕ → List ℕ)
    (hmc : cfg.mag_cut ≤ 0) (hmm : cfg.max_mag ≤ 0) (hutb : cfg.use_tapebumps = true)
    (hres : cfg.reserve = 0) (htbd : tbd ≠ [])
    (hns : (starFlags.filter (fun b => b)).length ≠ 0)
    (hq : stageQuality (maskSelect catData starFlags) = []) :
    (mainStep cfg tbd fwhm wdir root cat_file catData starFlags rperm).flag.testBit 0 = true
    ∧ (mainStep cfg tbd fwhm wdir root cat_file catData starFlags rperm).nFinal = some 0
    ∧ (mainStep cfg tbd fwhm wdir root cat_file catData starFlags rperm).completed = false
    ∧ (mainStep cfg tbd fwhm wdir root cat_file catData starFlags rperm).writes
        = [strReplace cat_file "psfcat" "psfcat_findstars",
           strReplace (strReplace cat_file "psfcat" "psfcat_findstars") "psfcat" "psfcat_tb"] :=
  mainStep_empty_quality cfg tbd fwhm wdir root cat_file catData starFlags rperm
    hmc hmm hutb hres htbd hns hq

/-- A detection the star finder flagged as a star but whose SExtractor
FLAGS are nonzero, so it fails the quality filter. -/
def flaggedRow : Row := ⟨6, 3, 5, 5, 20, 1⟩

/-- C2 counterexample: a unit whose quality filter passes zero rows still
executes the tapebump stage and writes a further (renamed) catalog
artifact before the no-stars anomaly fires; the claim says no subsequent
stage executes and no further artifact is written. -/
theorem C2_quality_zero_still_writes :
    stageQuality (maskSelect [flaggedRow] [true]) = []
    ∧ (mainStep ⟨-1, 10, -1, true, 2, 0⟩ [sampleRegion] 4 "w" "r" "D00_psfcat.fits"
        [flaggedRow] [true] (fun n => List.range n)).writes
      = ["D00_psfcat_findstars.fits", "D00_psfcat_tb_findstars.fits"]
    ∧ (mainStep ⟨-1, 10, -1, true, 2, 0⟩ [sampleRegion] 4 "w" "r" "D00_psfcat.fits"
        [flaggedRow] [true] (fun n => List.range n)).flag.testBit 0 = true := by
  have h := mainStep_empty_quality ⟨-1, 10, -1, true, 2, 0⟩ [sampleRegion] 4 "w" "r"
    "D00_psfcat.fits" [flaggedRow] [true] (fun n => List.range n)
    (by norm_num) (by norm_num) rfl rfl (by decide) (by decide) rfl
  refine ⟨rfl, ?_, h.1⟩
  rw [h.2.2.2]
  have h1 : strReplace "D00_psfcat.fits" "psfcat" "psfcat_findstars"
      = "D00_psfcat_findstars.fits" := rfl
  have h2 : strReplace "D00_psfcat_findstars.fits" "psfcat" "psfcat_tb"
      = "D00_psfcat_tb_findstars.fits" := rfl
  rw [h1, h2]

/-- C2 witness: the amended theorem applied to the same concrete unit. -/
theorem C2_no_stars_after_quality_witness :
    (mainStep ⟨-1, 10, -1, true, 2, 0⟩ [sampleRegion] 4 "w" "r" "D00_psfcat.fits"
        [flaggedRow] [true] (fun n => List.range n)).flag.testBit 0 = true
    ∧ (mainStep ⟨-1, 10, -1, true, 2, 0⟩ [sampleRegion] 4 "w" "r" "D00_psfcat.fits"
        [flaggedRow] [true] (fun n => List.range n)).nFinal = some 0
    ∧ (mainStep ⟨-1, 10, -1, true, 2, 0⟩ [sampleRegion] 4 "w" "r" "D00_psfcat.fits"
        [flaggedRow] [true] (fun n => List.range n)).completed = false
    ∧ (mainStep ⟨-1, 10, -1, true, 2, 0⟩ [sampleRegion] 4 "w" "r" "D00_psfcat.fits"
        [flaggedRow] [true] (fun n => List.range n)).writes
      = [strReplace "D00_psfcat.fits" "psfcat" "psfcat_findstars",
         strReplace (strReplace "D00_psfcat.fits" "psfcat" "psfcat_findstars") "psfcat" "psfcat_tb"] :=
  C2_no_stars_after_quality ⟨-1, 10, -1, true, 2, 0⟩ [sampleRegion] 4 "w" "r"
    "D00_psfcat.fits" [flaggedRow] [true] (fun n => List.range n)
    (by norm_num) (by norm_num) rfl rfl (by decide) (by decide) rfl

theorem fmt_magcut2 : fmtFixed 1 2 = "2.0" := by
  rw [fmtFixed_eval 1 2 20 (by push_cast; norm_num)]
  rfl

theorem fmt_maxmag25 : fmtFixed 1 25 = "25.0" := by
  rw [fmtFixed_eval 1 25 250 (by push_cast; norm_num)]
  rfl

theorem fmt_reserve02 : fmtFixed 2 (1/5) = "0.20" := by
  rw [fmtFixed_eval 2 (1/5) 20 (by push_cast; norm_num)]
  rfl

/-- Modelled from the spec's words (§4.2): each enabled transition
"deterministically renames the artifact by appending a filter-specific
suffix token", the tokens accumulating in the order the filters are
applied. -/
def specAppendTokens (cat_file : String) (tokens : List String) : String :=
  tokens.foldl (fun nm t => nm ++ t) cat_file

/-- C7 (amended): for every combination of enabled optional stages (bright
cut 2.0, faint cut 25.0, tapebump, reservation 0.20) the pipeline rewrites
the artifact name by replacing the stem `psfcat` with
`psfcat_<token>`, so the final name carries the applied filters' tokens
immediately after the stem in REVERSE order of application; the quality
filter contributes no token. -/
theorem C7_suffix_tokens (bMc bMm bTb bRes : Bool) (catData : List Row)
    (hq : ¬ (stageQuality catData).isEmpty = true) :
    (remove_bad_stars "w" "r" "D00_psfcat.fits" catData [sampleRegion]
        (if bMc then 2 else -1) 10 (if bMm then 25 else -1) bTb 2
        (if bRes then 1/5 else 0) 4 (fun n => List.range n)).map
        (fun rr => rr.new_cat_file)
      = .ok ("D00_psfcat"
          ++ (if bRes then "_reserve_0.20" else "")
          ++ (if bTb then "_tb" else "")
          ++ (if bMm then "_maxmag_25.0" else "")
          ++ (if bMc then "_magcut_2.0" else "")
          ++ ".fits") := by
  have hq' : (stageQuality catData).isEmpty = false := by simpa using hq
  cases bMc <;> cases bMm <;> cases bTb <;> cases bRes <;>
    (norm_num [remove_bad_stars, stageMag, stageMaxMag, stageTb, stageReserve, magCutStage,
      exclude_tapebumps, hq', fmt_magcut2, fmt_maxmag25, fmt_reserve02, Except.map]
     try rfl)

/-- C7 counterexample: with the bright cut applied first and tapebump
exclusion second, the final artifact name carries the tapebump token
BEFORE the bright-cut token (each rename inserts its token right after
the `psfcat` stem), and it differs from the name obtained by appending
the suffix tokens in the order the filters were applied, as the claim
describes. -/
theorem C7_token_order_reversed :
    (remove_bad_stars "w" "r" "D00_psfcat.fits" [farRowA] [sampleRegion] 2 10 (-1) true 2 0 4
        (fun n => List.range n)).map (fun rr => rr.new_cat_file)
      = .ok "D00_psfcat_tb_magcut_2.0.fits"
    ∧ specAppendTokens "D00_psfcat.fits" ["_magcut_2.0", "_tb"]
        ≠ "D00_psfcat_tb_magcut_2.0.fits" := by
  constructor
  · norm_num [remove_bad_stars, stageMag, stageMaxMag, stageTb, stageReserve, magCutStage,
      exclude_tapebumps, fmt_magcut2, Except.map]
    rfl
  · decide

/-- C7 witness: the amended theorem applied with all four optional stages
enabled on a one-star catalog. -/
theorem C7_suffix_tokens_witness :
    (remove_bad_stars "w" "r" "D00_psfcat.fits" [farRowA] [sampleRegion]
        (if true then 2 else -1) 10 (if true then 25 else -1) true 2
        (if true then 1/5 else 0) 4 (fun n => List.range n)).map
        (fun rr => rr.new_cat_file)
      = .ok ("D00_psfcat"
          ++ (if true then "_reserve_0.20" else "")
          ++ (if true then "_tb" else "")
          ++ (if true then "_maxmag_25.0" else "")
          ++ (if true then "_magcut_2.0" else "")
          ++ ".fits") :=
  C7_suffix_tokens true true true true [farRowA] (by decide)
